import Mathlib

/-!
Verification of the BloxfruitsPvpTierlist player/tier storage, ranking,
authorization and notification layers, as a shallow embedding of the
TypeScript/JavaScript source.

Conventions of the embedding:
* JS numbers that hold ids and timestamps are modelled as `Nat`; point
  totals and permission flags (SQL integers) as `Int`.
* JS `undefined`/absent values are modelled with `Option`.
* JS string truthiness (`""` is falsy) is modelled explicitly at each
  use site.
* JS `Map` objects keyed by id are modelled as lists in insertion order;
  `Map.set` on an existing key replaces the entry in place, `Map.set` on
  a fresh key appends, `Map.delete` filters.
* `Array.prototype.sort` with comparator `(a, b) => b.points - a.points`
  is a stable descending sort by points; it is modelled with the stable
  `List.insertionSort` under the total relation `b.points ≤ a.points`,
  which produces the same list.
-/

namespace BloxTier

/-- `players` row of shared/schema.ts (fields needed by the claims). -/
structure Player where
  id : Nat
  robloxId : String
  username : String
  avatarUrl : String
  combatTitle : String
  points : Int
  webhookUrl : Option String
  deriving Repr, DecidableEq

/-- `tiers` row of shared/schema.ts. -/
structure Tier where
  id : Nat
  playerId : Nat
  category : String
  tier : String
  updatedAt : Nat
  deriving Repr, DecidableEq

/-- `PlayerWithTiers` of shared/schema.ts: a player paired with tiers. -/
structure PlayerWithTiers where
  player : Player
  tiers : List Tier
  deriving Repr, DecidableEq

/-- client/src/lib/utils.ts `sortPlayersByPoints`:
`[...players].sort((a, b) => b.player.points - a.player.points)`. -/
def sortPlayersByPoints (players : List PlayerWithTiers) : List PlayerWithTiers :=
  List.insertionSort (fun a b => b.player.points ≤ a.player.points) players

/-- client/src/lib/utils.ts `getPlayerRank`. `List.findIdx?` returning
`none` models `findIndex` returning `-1`. -/
def getPlayerRank (player : PlayerWithTiers) (players : List PlayerWithTiers) : Nat :=
  let sortedPlayers := sortPlayersByPoints players
  match sortedPlayers.findIdx? (fun p => p.player.id == player.player.id) with
  | none => 0
  | some _ =>
    let playerPoints := player.player.points
    let higherRankedPlayers :=
      (sortedPlayers.filter (fun p => playerPoints < p.player.points)).length
    higherRankedPlayers + 1

/-- A bare player record for concrete test data. -/
def mkPlayer (id : Nat) (points : Int) : PlayerWithTiers :=
  { player := { id := id, robloxId := "r", username := "u", avatarUrl := "a",
                combatTitle := "Pirate", points := points, webhookUrl := none },
    tiers := [] }

theorem sortPlayersByPoints_perm (l : List PlayerWithTiers) :
    List.Perm (sortPlayersByPoints l) l :=
  List.perm_insertionSort _ l

/-- C1: `getPlayerRank` implements competition ranking: 1 plus the number
of players in the list with strictly more points when the player's id
occurs in the list, and 0 when it does not; on points [300, 300, 100] the
ranks are [1, 1, 3]. -/
theorem getPlayerRank_spec :
    (∀ (p : PlayerWithTiers) (L : List PlayerWithTiers),
      getPlayerRank p L =
        if L.any (fun q => q.player.id == p.player.id) then
          1 + (L.filter (fun q => p.player.points < q.player.points)).length
        else 0)
    ∧ ([mkPlayer 1 300, mkPlayer 2 300, mkPlayer 3 100].map
        (fun p => getPlayerRank p [mkPlayer 1 300, mkPlayer 2 300, mkPlayer 3 100]))
        = [1, 1, 3] := by
  constructor
  · intro p L
    unfold getPlayerRank
    have hperm := sortPlayersByPoints_perm L
    cases hfind : (sortPlayersByPoints L).findIdx?
        (fun q => q.player.id == p.player.id) with
    | none =>
      have hnone := List.findIdx?_eq_none_iff.mp hfind
      have hany : L.any (fun q => q.player.id == p.player.id) = false := by
        rw [List.any_eq_false]
        intro x hx
        have := hnone x (hperm.mem_iff.mpr hx)
        simp_all
      simp [hfind, hany]
    | some i =>
      have hsome : ∃ x ∈ sortPlayersByPoints L,
          (x.player.id == p.player.id) = true := by
        by_contra hcon
        push_neg at hcon
        have : (sortPlayersByPoints L).findIdx?
            (fun q => q.player.id == p.player.id) = none := by
          rw [List.findIdx?_eq_none_iff]
          intro x hx
          simpa using hcon x hx
        simp [this] at hfind
      have hany : L.any (fun q => q.player.id == p.player.id) = true := by
        rw [List.any_eq_true]
        obtain ⟨x, hx, hxp⟩ := hsome
        exact ⟨x, hperm.mem_iff.mp hx, hxp⟩
      have hcount :
          ((sortPlayersByPoints L).filter
            (fun q => p.player.points < q.player.points)).length
          = (L.filter (fun q => p.player.points < q.player.points)).length := by
        rw [← List.countP_eq_length_filter, ← List.countP_eq_length_filter]
        exact hperm.countP_congr (fun x _ => rfl)
      simp [hfind, hany, hcount, Nat.add_comm]
  · decide

/-- `admins` row of shared/schema.ts (permission flags are SQL integers,
JS-falsy exactly when 0). -/
structure Admin where
  id : Nat
  username : String
  password : String
  isSuperAdmin : Int
  canManagePlayers : Int
  canManageAdmins : Int
  deriving Repr, DecidableEq

/-- server MemStorage state: three id-keyed maps plus the id counters. -/
structure Storage where
  players : List Player
  tiers : List Tier
  admins : List Admin
  playerIdCounter : Nat
  tierIdCounter : Nat
  adminIdCounter : Nat
  deriving Repr, DecidableEq

/-- `MemStorage.getPlayerById`. -/
def getPlayerById (st : Storage) (id : Nat) : Option Player :=
  st.players.find? (fun p => p.id == id)

/-- `MemStorage.getPlayerByRobloxId`. -/
def getPlayerByRobloxId (st : Storage) (robloxId : String) : Option Player :=
  st.players.find? (fun p => p.robloxId == robloxId)

/-- `MemStorage.getTiersByPlayerId`. -/
def getTiersByPlayerId (st : Storage) (playerId : Nat) : List Tier :=
  st.tiers.filter (fun t => t.playerId == playerId)

/-- `MemStorage.getTierByPlayerAndCategory`. -/
def getTierByPlayerAndCategory (st : Storage) (playerId : Nat) (category : String) :
    Option Tier :=
  st.tiers.find? (fun t => t.playerId == playerId && t.category == category)

/-- JS truthiness of the optional `category` string parameter:
`undefined` and `""` are falsy. -/
def strTruthy : Option String → Bool
  | none => false
  | some s => s != ""

/-- The body of `if (category && category !== "overall")
{ playerTiers = playerTiers.filter(t => t.category === category) }`. -/
def tierFilterJS (category : Option String) (playerTiers : List Tier) : List Tier :=
  match category with
  | some c =>
    if c != "" && c != "overall" then playerTiers.filter (fun t => t.category == c)
    else playerTiers
  | none => playerTiers

/-- `MemStorage.getPlayersWithTiers` (server/storage.ts 196-221, identical
logic in the unnamed storage snapshot): per player, fetch its tiers,
filter them when a concrete category is given, include the player when
`!category || playerTiers.length > 0`, then sort by points descending. -/
def getPlayersWithTiers (st : Storage) (category : Option String) : List PlayerWithTiers :=
  List.insertionSort (fun a b => b.player.points ≤ a.player.points)
    (st.players.filterMap (fun player =>
      let playerTiers := tierFilterJS category (getTiersByPlayerId st player.id)
      if !(strTruthy category) || !playerTiers.isEmpty then
        some { player := player, tiers := playerTiers }
      else none))

theorem getPlayersWithTiers_mem (st : Storage) (category : Option String)
    (e : PlayerWithTiers) :
    e ∈ getPlayersWithTiers st category ↔
      ∃ p ∈ st.players,
        (let playerTiers := tierFilterJS category (getTiersByPlayerId st p.id)
         if !(strTruthy category) || !playerTiers.isEmpty then
           some { player := p, tiers := playerTiers }
         else none) = some e := by
  unfold getPlayersWithTiers
  rw [(List.perm_insertionSort _ _).mem_iff, List.mem_filterMap]

/-- A player with no tiers at all, and a storage holding only that player. -/
def tierlessPlayer : Player :=
  { id := 1, robloxId := "100", username := "alice", avatarUrl := "a",
    combatTitle := "Pirate", points := 5, webhookUrl := none }

def tierlessStorage : Storage :=
  { players := [tierlessPlayer], tiers := [], admins := [],
    playerIdCounter := 2, tierIdCounter := 1, adminIdCounter := 1 }

/-- C2, counterexample: with the category argument `"overall"` the stored
player with zero tiers is dropped — the result is empty although the
storage holds one player, contradicting the claim that every stored
player is returned. -/
theorem getPlayersWithTiers_overall_counterexample :
    getPlayersWithTiers tierlessStorage (some "overall") = []
    ∧ tierlessStorage.players.length = 1 := by
  constructor
  · rfl
  · rfl

/-- C2, amended: with no category argument every stored player is
returned with all of its tiers (players with zero tiers included); with
the category `"overall"` all tiers are likewise attached unfiltered, but
a player with zero tiers is excluded from the result. -/
theorem strTruthy_overall : strTruthy (some "overall") = true := by decide

theorem tierFilterJS_overall (l : List Tier) :
    tierFilterJS (some "overall") l = l := by
  simp [tierFilterJS]

/-- Membership in the `"overall"` aggregation: exactly the players with a
nonempty (unfiltered) tier list, each carrying all of its tiers. -/
theorem mem_getPlayersWithTiers_overall (st : Storage) (e : PlayerWithTiers) :
    e ∈ getPlayersWithTiers st (some "overall") ↔
      ∃ p ∈ st.players, ¬(getTiersByPlayerId st p.id).isEmpty
        ∧ e = { player := p, tiers := getTiersByPlayerId st p.id } := by
  rw [getPlayersWithTiers_mem]
  constructor
  · rintro ⟨p, hp, hpe⟩
    simp only [tierFilterJS_overall, strTruthy_overall, Bool.not_true,
      Bool.false_or] at hpe
    by_cases hemp : (getTiersByPlayerId st p.id).isEmpty
    · simp [hemp] at hpe
    · refine ⟨p, hp, hemp, ?_⟩
      simp only [hemp, Bool.not_false, if_true, Option.some.injEq] at hpe
      exact hpe.symm
  · rintro ⟨p, hp, hemp, rfl⟩
    refine ⟨p, hp, ?_⟩
    rw [Bool.not_eq_true] at hemp
    simp only [tierFilterJS_overall, strTruthy_overall, Bool.not_true,
      Bool.false_or, hemp, Bool.not_false, if_true]

theorem getPlayersWithTiers_no_filter_spec (st : Storage) :
    List.Perm (getPlayersWithTiers st none)
      (st.players.map (fun p => { player := p, tiers := getTiersByPlayerId st p.id }))
    ∧ (∀ e ∈ getPlayersWithTiers st (some "overall"),
        e.tiers = getTiersByPlayerId st e.player.id ∧ e.tiers ≠ [])
    ∧ (∀ p ∈ st.players, getTiersByPlayerId st p.id ≠ [] →
        ({ player := p, tiers := getTiersByPlayerId st p.id } : PlayerWithTiers)
          ∈ getPlayersWithTiers st (some "overall")) := by
  refine ⟨?_, ?_, ?_⟩
  · have h : st.players.filterMap (fun player =>
        let playerTiers := tierFilterJS none (getTiersByPlayerId st player.id)
        if !(strTruthy none) || !playerTiers.isEmpty then
          some ({ player := player, tiers := playerTiers } : PlayerWithTiers)
        else none)
        = st.players.map (fun p =>
            ({ player := p, tiers := getTiersByPlayerId st p.id } : PlayerWithTiers)) := by
      induction st.players with
      | nil => rfl
      | cons a l ih =>
        simp [strTruthy, tierFilterJS] at ih ⊢
        exact ih
    unfold getPlayersWithTiers
    rw [h]
    exact List.perm_insertionSort _ _
  · intro e he
    rw [mem_getPlayersWithTiers_overall] at he
    obtain ⟨p, _, hemp, rfl⟩ := he
    exact ⟨rfl, by simpa [List.isEmpty_iff] using hemp⟩
  · intro p hp hne
    rw [mem_getPlayersWithTiers_overall]
    exact ⟨p, hp, by simpa [List.isEmpty_iff] using hne, rfl⟩

/-- Membership in a concrete-category aggregation: exactly the players
with a nonempty filtered tier list, each carrying only the matching
tiers. -/
theorem mem_getPlayersWithTiers_category (st : Storage) (c : String)
    (hc1 : c ≠ "overall") (hc2 : c ≠ "") (e : PlayerWithTiers) :
    e ∈ getPlayersWithTiers st (some c) ↔
      ∃ p ∈ st.players,
        ¬((getTiersByPlayerId st p.id).filter (fun t => t.category == c)).isEmpty
        ∧ e = { player := p,
                tiers := (getTiersByPlayerId st p.id).filter
                  (fun t => t.category == c) } := by
  have hcb1 : (c != "overall") = true := by simpa using hc1
  have hcb2 : (c != "") = true := by simpa using hc2
  have hs : strTruthy (some c) = true := by simpa [strTruthy] using hcb2
  have hf : ∀ l : List Tier, tierFilterJS (some c) l
      = l.filter (fun t => t.category == c) := by
    intro l
    simp [tierFilterJS, hcb1, hcb2]
  rw [getPlayersWithTiers_mem]
  constructor
  · rintro ⟨p, hp, hpe⟩
    simp only [hf, hs, Bool.not_true, Bool.false_or] at hpe
    by_cases hemp : ((getTiersByPlayerId st p.id).filter
        (fun t => t.category == c)).isEmpty
    · simp [hemp] at hpe
    · refine ⟨p, hp, hemp, ?_⟩
      simp only [hemp, Bool.not_false, if_true, Option.some.injEq] at hpe
      exact hpe.symm
  · rintro ⟨p, hp, hemp, rfl⟩
    refine ⟨p, hp, ?_⟩
    rw [Bool.not_eq_true] at hemp
    simp only [hf, hs, Bool.not_true, Bool.false_or, hemp, Bool.not_false,
      if_true]

/-- C4: requesting a concrete category `c` (any category other than the
virtual `"overall"`; the enum members are nonempty strings) attaches to
each returned player exactly its tiers of category `c`, returns no entry
with an empty tier list, and omits entirely every stored player with
zero tiers of category `c`. -/
theorem getPlayersWithTiers_category_spec (st : Storage) (c : String)
    (hc1 : c ≠ "overall") (hc2 : c ≠ "") :
    (∀ e ∈ getPlayersWithTiers st (some c),
        e.tiers = (getTiersByPlayerId st e.player.id).filter (fun t => t.category == c)
        ∧ e.tiers ≠ [])
    ∧ (∀ p ∈ st.players,
        (getTiersByPlayerId st p.id).filter (fun t => t.category == c) = [] →
        ∀ e ∈ getPlayersWithTiers st (some c), e.player ≠ p) := by
  constructor
  · intro e he
    rw [mem_getPlayersWithTiers_category st c hc1 hc2] at he
    obtain ⟨p, _, hemp, rfl⟩ := he
    exact ⟨rfl, by simpa [List.isEmpty_iff] using hemp⟩
  · intro p hp hzero e he heq
    rw [mem_getPlayersWithTiers_category st c hc1 hc2] at he
    obtain ⟨q, _, hemp, rfl⟩ := he
    have hqp : q = p := heq
    rw [hqp, hzero] at hemp
    simp at hemp

/-- Witness for `getPlayersWithTiers_no_filter_spec` at the concrete
tierless storage. -/
theorem getPlayersWithTiers_no_filter_spec_witness :
    List.Perm (getPlayersWithTiers tierlessStorage none)
      (tierlessStorage.players.map (fun p =>
        { player := p, tiers := getTiersByPlayerId tierlessStorage p.id })) :=
  (getPlayersWithTiers_no_filter_spec tierlessStorage).1

/-- A one-melee-tier variant of the storage for concrete instances. -/
def meleeTierA : Tier :=
  { id := 1, playerId := 1, category := "melee", tier := "A", updatedAt := 0 }

def meleeStorage : Storage :=
  { players := [tierlessPlayer], tiers := [meleeTierA], admins := [],
    playerIdCounter := 2, tierIdCounter := 2, adminIdCounter := 1 }

/-- Witness for `getPlayersWithTiers_category_spec` at a concrete state,
category and result entry. -/
theorem getPlayersWithTiers_category_spec_witness :
    ({ player := tierlessPlayer, tiers := [meleeTierA] } : PlayerWithTiers).tiers
      = (getTiersByPlayerId meleeStorage
          ({ player := tierlessPlayer, tiers := [meleeTierA] }
            : PlayerWithTiers).player.id).filter
        (fun t => t.category == "melee")
    ∧ ({ player := tierlessPlayer, tiers := [meleeTierA] }
        : PlayerWithTiers).tiers ≠ [] :=
  (getPlayersWithTiers_category_spec meleeStorage "melee"
    (by decide) (by decide)).1
    { player := tierlessPlayer, tiers := [meleeTierA] } (by decide)

/-- `insertTierSchema` payload: a tier write without id/updatedAt. -/
structure InsertTier where
  playerId : Nat
  category : String
  tier : String
  deriving Repr, DecidableEq

/-- `MemStorage.createTier` (server/storage.ts 133-159): upsert keyed by
(playerId, category).  An existing tier is updated in place (`Map.set`
on its existing id, modelled as in-place replacement); otherwise a new
tier with the next counter id is inserted. -/
def createTier (st : Storage) (tierData : InsertTier) (now : Nat) : Tier × Storage :=
  match getTierByPlayerAndCategory st tierData.playerId tierData.category with
  | some existingTier =>
    let updatedTier : Tier :=
      { existingTier with tier := tierData.tier, updatedAt := now }
    (updatedTier,
     { st with tiers := st.tiers.map (fun t =>
         if t.id == existingTier.id then updatedTier else t) })
  | none =>
    let id := st.tierIdCounter
    let tier : Tier := { id := id, playerId := tierData.playerId,
                         category := tierData.category, tier := tierData.tier,
                         updatedAt := now }
    (tier, { st with tiers := st.tiers ++ [tier], tierIdCounter := id + 1 })

/-- `MemStorage.deleteTier`: `Map.delete` by tier id, returning whether
the id was present. -/
def deleteTier (st : Storage) (id : Nat) : Bool × Storage :=
  (st.tiers.any (fun t => t.id == id),
   { st with tiers := st.tiers.filter (fun t => t.id != id) })

/-- `MemStorage.deletePlayer`: `Map.delete` by player id. -/
def deletePlayer (st : Storage) (id : Nat) : Bool × Storage :=
  (st.players.any (fun p => p.id == id),
   { st with players := st.players.filter (fun p => p.id != id) })

/-- At most one tier per (playerId, category) pair. -/
def tiersPairUnique (l : List Tier) : Prop :=
  l.Pairwise (fun a b => ¬(a.playerId = b.playerId ∧ a.category = b.category))

/-- The tier map's keys (ids) are distinct and below the id counter;
both hold of every state reachable through `MemStorage`, whose tiers
live in a `Map` keyed by id assigned from the counter. -/
def tierIdsWellFormed (st : Storage) : Prop :=
  (st.tiers.map Tier.id).Nodup ∧ ∀ t ∈ st.tiers, t.id < st.tierIdCounter

theorem countP_map_of_mem {α : Type} (l : List α) (g : α → α) (p : α → Bool)
    (h : ∀ t ∈ l, p (g t) = p t) : (l.map g).countP p = l.countP p := by
  induction l with
  | nil => rfl
  | cons a l ih =>
    rw [List.map_cons, List.countP_cons, List.countP_cons,
      h a (List.mem_cons_self a l), ih (fun t ht => h t (List.mem_cons_of_mem a ht))]

/-- C5: `createTier` on a (player, category) pair that already has a tier
updates it in place — the returned tier keeps the existing id, carries
the new grade and timestamp, and the player's stored tier count does not
increase — and every `createTier` call preserves the at-most-one-tier-
per-pair invariant. -/
theorem createTier_upsert_spec (st : Storage) (td : InsertTier) (now : Nat)
    (hwf : tierIdsWellFormed st) :
    (∀ ex, getTierByPlayerAndCategory st td.playerId td.category = some ex →
      (createTier st td now).1.id = ex.id
      ∧ (createTier st td now).1.tier = td.tier
      ∧ (createTier st td now).1.updatedAt = now
      ∧ (getTiersByPlayerId (createTier st td now).2 td.playerId).length
          ≤ (getTiersByPlayerId st td.playerId).length)
    ∧ (tiersPairUnique st.tiers → tiersPairUnique (createTier st td now).2.tiers) := by
  obtain ⟨hnd, hlt⟩ := hwf
  constructor
  · intro ex hex
    have hexmem : ex ∈ st.tiers := List.mem_of_find?_eq_some hex
    have hexpred := List.find?_some hex
    have hexpid : ex.playerId = td.playerId := by
      simp only [Bool.and_eq_true, beq_iff_eq] at hexpred
      exact hexpred.1
    have heq : ∀ t ∈ st.tiers, t.id = ex.id → t = ex := by
      intro t ht hid
      exact List.inj_on_of_nodup_map hnd ht hexmem hid
    unfold createTier
    rw [hex]
    refine ⟨rfl, rfl, rfl, ?_⟩
    unfold getTiersByPlayerId
    rw [← List.countP_eq_length_filter, ← List.countP_eq_length_filter]
    have hcnt : ((st.tiers.map (fun t =>
        if t.id == ex.id then { ex with tier := td.tier, updatedAt := now } else t)).countP
          (fun t => t.playerId == td.playerId))
        = st.tiers.countP (fun t => t.playerId == td.playerId) := by
      apply countP_map_of_mem
      intro t ht
      by_cases hid : (t.id == ex.id) = true
      · have ht_ex : t = ex := heq t ht (by simpa using hid)
        simp [hid, ht_ex]
      · simp [hid]
    exact Nat.le_of_eq hcnt
  · intro huniq
    unfold createTier
    cases hex : getTierByPlayerAndCategory st td.playerId td.category with
    | some ex =>
      have hexmem : ex ∈ st.tiers := List.mem_of_find?_eq_some hex
      have heq : ∀ t ∈ st.tiers, t.id = ex.id → t = ex := by
        intro t ht hid
        exact List.inj_on_of_nodup_map hnd ht hexmem hid
      simp only
      unfold tiersPairUnique at huniq ⊢
      rw [List.pairwise_map]
      refine huniq.imp_of_mem ?_
      intro a b ha hb hrel
      by_cases hida : (a.id == ex.id) = true
      · have ha_ex : a = ex := heq a ha (by simpa using hida)
        by_cases hidb : (b.id == ex.id) = true
        · have hb_ex : b = ex := heq b hb (by simpa using hidb)
          rw [ha_ex, hb_ex] at hrel
          exact absurd ⟨rfl, rfl⟩ hrel
        · simp only [hida, hidb, if_true, if_false]
          rw [ha_ex] at hrel
          simpa using hrel
      · by_cases hidb : (b.id == ex.id) = true
        · have hb_ex : b = ex := heq b hb (by simpa using hidb)
          simp only [hida, hidb, if_true, if_false]
          rw [hb_ex] at hrel
          simpa using hrel
        · simp only [hida, hidb, if_false]
          exact hrel
    | none =>
      have hfresh : ∀ t ∈ st.tiers,
          ¬(t.playerId = td.playerId ∧ t.category = td.category) := by
        intro t ht hcon
        have := List.find?_eq_none.mp hex t ht
        simp only [Bool.and_eq_true, beq_iff_eq] at this
        exact this ⟨hcon.1, hcon.2⟩
      simp only
      unfold tiersPairUnique at huniq ⊢
      rw [List.pairwise_append]
      refine ⟨huniq, List.pairwise_singleton _ _, ?_⟩
      intro a ha b hb hcon
      rw [List.mem_singleton] at hb
      rw [hb] at hcon
      exact hfresh a ha ⟨hcon.1, hcon.2⟩

/-- Witness for `createTier_upsert_spec`: a concrete upsert over a
one-tier storage keeps the tier count at one. -/
theorem createTier_upsert_spec_witness :
    (createTier
      { players := [tierlessPlayer],
        tiers := [{ id := 1, playerId := 1, category := "melee", tier := "A",
                    updatedAt := 0 }],
        admins := [], playerIdCounter := 2, tierIdCounter := 2, adminIdCounter := 1 }
      { playerId := 1, category := "melee", tier := "SS" } 7).1.id = 1 :=
  ((createTier_upsert_spec _ _ 7 (by constructor <;> decide)).1
    { id := 1, playerId := 1, category := "melee", tier := "A", updatedAt := 0 }
    (by decide)).1

/-- server/routes.ts DELETE /api/players/:id handler (after the auth
middleware): 404 when the player is absent (modelled as `none`);
otherwise delete each of the player's tiers by tier id, delete the
player, and answer `{ success: deleted }`. -/
def deletePlayersHandler (st : Storage) (id : Nat) : Option Bool × Storage :=
  match getPlayerById st id with
  | none => (none, st)
  | some _ =>
    let tiersToDelete := getTiersByPlayerId st id
    let st1 := tiersToDelete.foldl (fun s t => (deleteTier s t.id).2) st
    let res := deletePlayer st1 id
    (some res.1, res.2)

theorem foldl_deleteTier_tiers (l : List Tier) (st : Storage) :
    (l.foldl (fun s t => (deleteTier s t.id).2) st).tiers
      = st.tiers.filter (fun t => !(l.any (fun d => d.id == t.id))) := by
  induction l generalizing st with
  | nil => simp
  | cons d ds ih =>
    rw [List.foldl_cons, ih]
    show ((deleteTier st d.id).2.tiers.filter _) = _
    unfold deleteTier
    rw [List.filter_filter]
    apply List.filter_congr
    intro t _
    show (!(ds.any (fun e => e.id == t.id)) && (t.id != d.id)) = _
    by_cases h1 : t.id = d.id
    · simp [h1]
    · have h2 : (t.id != d.id) = true := by simpa using h1
      have h3 : (d.id == t.id) = false := by
        simp only [beq_eq_false_iff_ne, ne_eq]
        exact fun he => h1 he.symm
      simp [h2, h3]

theorem foldl_deleteTier_players (l : List Tier) (st : Storage) :
    (l.foldl (fun s t => (deleteTier s t.id).2) st).players = st.players := by
  induction l generalizing st with
  | nil => rfl
  | cons d ds ih =>
    rw [List.foldl_cons, ih]
    rfl

/-- C6: deleting an existing player removes every tier referencing that
player's id, removes the player row, and reports `success = true`
(the row was actually removed). -/
theorem deletePlayersHandler_cascade (st : Storage) (pid : Nat)
    (hp : (getPlayerById st pid).isSome) :
    (deletePlayersHandler st pid).1 = some true
    ∧ (∀ t ∈ (deletePlayersHandler st pid).2.tiers, t.playerId ≠ pid)
    ∧ (∀ q ∈ (deletePlayersHandler st pid).2.players, q.id ≠ pid) := by
  obtain ⟨p, hfind⟩ := Option.isSome_iff_exists.mp hp
  have hpmem : p ∈ st.players := List.mem_of_find?_eq_some hfind
  have hpid : p.id = pid := by simpa using List.find?_some hfind
  unfold deletePlayersHandler
  rw [hfind]
  simp only
  refine ⟨?_, ?_, ?_⟩
  · unfold deletePlayer
    rw [foldl_deleteTier_players]
    have : st.players.any (fun q => q.id == pid) = true := by
      rw [List.any_eq_true]
      exact ⟨p, hpmem, by simpa using hpid⟩
    simp [this]
  · intro t ht hcon
    unfold deletePlayer at ht
    simp only at ht
    rw [foldl_deleteTier_tiers] at ht
    have ht' := List.mem_filter.mp ht
    have htmem : t ∈ st.tiers := ht'.1
    have htkeep := ht'.2
    have : (getTiersByPlayerId st pid).any (fun d => d.id == t.id) = true := by
      rw [List.any_eq_true]
      refine ⟨t, ?_, by simp⟩
      unfold getTiersByPlayerId
      rw [List.mem_filter]
      exact ⟨htmem, by simpa using hcon⟩
    rw [this] at htkeep
    simp at htkeep
  · intro q hq
    unfold deletePlayer at hq
    simp only at hq
    have := (List.mem_filter.mp hq).2
    simpa using this

/-- Witness for `deletePlayersHandler_cascade` at a concrete one-player,
one-tier state. -/
theorem deletePlayersHandler_cascade_witness :
    (deletePlayersHandler
      { players := [tierlessPlayer],
        tiers := [{ id := 1, playerId := 1, category := "melee", tier := "A",
                    updatedAt := 0 }],
        admins := [], playerIdCounter := 2, tierIdCounter := 2,
        adminIdCounter := 1 } 1).1 = some true :=
  (deletePlayersHandler_cascade _ 1 (by decide)).1

/-! ### server/webhook-utils.js -/

/-- `String.prototype.startsWith`, written over the character lists so
that concrete instances evaluate by `decide`. -/
def strStartsWith (s pat : String) : Bool :=
  pat.data.isPrefixOf s.data

def WEBHOOK_COOLDOWN_MS : Nat := 5000

def discordWebhookBase : String := "https://discord.com/api/webhooks/"

/-- The `data` argument of `sendDiscordWebhook`.  `tiers := none` models
an absent `data.tiers` (for which `Array.isArray` is false). -/
structure WebhookData where
  username : String
  avatarUrl : String
  combatTitle : String
  tiers : Option (List Tier)
  deriving Repr, DecidableEq

/-- One outbound `fetch` to a webhook URL.  `fields` is the embed field
list: one (category, grade) pair per tier (the cosmetic capitalisation
of the category in the field title is elided). -/
structure OutCall where
  url : String
  username : String
  fields : List (String × String)
  sentAt : Nat
  deriving Repr, DecidableEq

/-- The module-level mutable state of webhook-utils.js: the
`recentWebhooks` map (username → last-sent Date.now()) plus the log of
outbound calls made so far. -/
structure WebhookState where
  recent : List (String × Nat)
  calls : List OutCall
  deriving Repr, DecidableEq

def lookupRecent (recent : List (String × Nat)) (key : String) : Option Nat :=
  (recent.find? (fun e => e.1 == key)).map (fun e => e.2)

/-- `Map.set`: replace in place when the key is present, append
otherwise. -/
def setRecent (recent : List (String × Nat)) (key : String) (time : Nat) :
    List (String × Nat) :=
  if recent.any (fun e => e.1 == key) then
    recent.map (fun e => if e.1 == key then (key, time) else e)
  else recent ++ [(key, time)]

/-- The cleanup loop: drop entries older than 30 seconds. -/
def pruneRecent (recent : List (String × Nat)) (now : Nat) : List (String × Nat) :=
  recent.filter (fun e => now - e.2 ≤ 30000)

/-- webhook-utils.js `sendDiscordWebhook`.  `now` is `Date.now()` at the
invocation; `fetchOk` abstracts whether the `fetch` succeeds with an ok
status (a failure is caught and turns into `false` after the call was
already issued and the dedup map updated).  A string that starts with
the Discord base URL always parses in `new URL(...)`, so that check is
subsumed by the second test. -/
def sendDiscordWebhook (webhookUrl : String) (data : WebhookData) (now : Nat)
    (fetchOk : Bool) (ws : WebhookState) : Bool × WebhookState :=
  if webhookUrl == "" then (false, ws)
  else if !(strStartsWith webhookUrl discordWebhookBase) then (false, ws)
  else
    let tiers := data.tiers.getD []
    let fields := tiers.map (fun t => (t.category, t.tier))
    if fields.isEmpty then (false, ws)
    else
      let webhookKey := data.username
      let suppressed :=
        match lookupRecent ws.recent webhookKey with
        | some lastSent => lastSent != 0 && decide (now - lastSent < WEBHOOK_COOLDOWN_MS)
        | none => false
      if suppressed then (false, ws)
      else
        let recent1 := pruneRecent (setRecent ws.recent webhookKey now) now
        let call : OutCall := { url := webhookUrl, username := data.username,
                                fields := fields, sentAt := now }
        (fetchOk, { recent := recent1, calls := ws.calls ++ [call] })

/-! ### Route handlers of the unnamed routes snapshot (part_013) -/

/-- `insertPlayerSchema` payload. -/
structure InsertPlayer where
  robloxId : String
  username : String
  avatarUrl : String
  combatTitle : String
  points : Int
  webhookUrl : Option String
  deriving Repr, DecidableEq

/-- shared/schema.ts `COMBAT_TITLE_MAPPING` applied by the handler when
the submitted title is truthy and one of the old names. -/
def mapCombatTitle (t : String) : String :=
  if t == "Rookie" then "Pirate"
  else if t == "Rising Star" then "Sea Prodigy"
  else if t == "Legendary Pirate" then "Warlord of the Sea"
  else if t == "Grand Master" then "Emperor of the Sea"
  else if t == "Combat Master" then "King of the Pirates"
  else t

/-- `MemStorage.createPlayer`. -/
def createPlayer (st : Storage) (pd : InsertPlayer) : Player × Storage :=
  let id := st.playerIdCounter
  let player : Player :=
    { id := id, robloxId := pd.robloxId, username := pd.username,
      avatarUrl := pd.avatarUrl, combatTitle := pd.combatTitle,
      points := pd.points, webhookUrl := pd.webhookUrl }
  (player, { st with players := st.players ++ [player],
                     playerIdCounter := id + 1 })

/-- `MemStorage.updatePlayer` with a full insert payload (what the
POST /players handler passes): all insert fields overwrite, id stays. -/
def updatePlayer (st : Storage) (id : Nat) (pd : InsertPlayer) :
    Option Player × Storage :=
  match getPlayerById st id with
  | none => (none, st)
  | some player =>
    let updated : Player :=
      { player with
        robloxId := pd.robloxId, username := pd.username,
        avatarUrl := pd.avatarUrl, combatTitle := pd.combatTitle,
        points := pd.points, webhookUrl := pd.webhookUrl }
    (some updated,
     { st with players := st.players.map (fun p =>
         if p.id == id then updated else p) })

/-- JS truthiness of `playerData.webhookUrl`. -/
def optStrTruthy (s : Option String) : Bool :=
  match s with
  | none => false
  | some v => v != ""

/-- POST /api/players handler of the routes snapshot (part_013 75-130),
after authentication: the permission gate reads only
`admin.canManagePlayers`; then upsert by roblox id (200 on update, 201
on create) and, when the submitted webhook URL is truthy, one
notification attempt with the existing player's tiers (empty for a new
player). -/
def postPlayers (admin : Admin) (playerData : InsertPlayer) (st : Storage)
    (ws : WebhookState) (now : Nat) (fetchOk : Bool) :
    Nat × Storage × WebhookState :=
  if admin.canManagePlayers == 0 then (403, st, ws)
  else
    let playerData := { playerData with
      combatTitle := if playerData.combatTitle != "" then
          mapCombatTitle playerData.combatTitle
        else playerData.combatTitle }
    match getPlayerByRobloxId st playerData.robloxId with
    | some existingPlayer =>
      let res := updatePlayer st existingPlayer.id playerData
      let st1 := res.2
      match playerData.webhookUrl with
      | some wurl =>
        if wurl == "" then (200, st1, ws)
        else
          let tiers := getTiersByPlayerId st1 existingPlayer.id
          let send := sendDiscordWebhook wurl
            { username := playerData.username, avatarUrl := playerData.avatarUrl,
              combatTitle := if playerData.combatTitle != "" then
                  playerData.combatTitle else "Pirate",
              tiers := some tiers } now fetchOk ws
          (200, st1, send.2)
      | none => (200, st1, ws)
    | none =>
      let res := createPlayer st playerData
      let st1 := res.2
      match playerData.webhookUrl with
      | some wurl =>
        if wurl == "" then (201, st1, ws)
        else
          let send := sendDiscordWebhook wurl
            { username := playerData.username, avatarUrl := playerData.avatarUrl,
              combatTitle := if playerData.combatTitle != "" then
                  playerData.combatTitle else "Pirate",
              tiers := some [] } now fetchOk ws
          (201, st1, send.2)
      | none => (201, st1, ws)

/-- POST /api/tiers handler of the routes snapshot (part_013 136-175):
permission gate on `admin.canManagePlayers`, 404 for a missing player,
then `createTier` and, when the player row has a truthy webhook URL, a
direct `sendDiscordWebhook` call with the player's freshly resolved
tier list. -/
def postTiers (admin : Admin) (tierData : InsertTier) (st : Storage)
    (ws : WebhookState) (now : Nat) (fetchOk : Bool) :
    Nat × Storage × WebhookState :=
  if admin.canManagePlayers == 0 then (403, st, ws)
  else
    match getPlayerById st tierData.playerId with
    | none => (404, st, ws)
    | some player =>
      let res := createTier st tierData now
      let st1 := res.2
      match player.webhookUrl with
      | some wurl =>
        if wurl == "" then (201, st1, ws)
        else
          let tiers := getTiersByPlayerId st1 player.id
          let send := sendDiscordWebhook wurl
            { username := player.username, avatarUrl := player.avatarUrl,
              combatTitle := if player.combatTitle != "" then
                  player.combatTitle else "Pirate",
              tiers := some tiers } now fetchOk ws
          (201, st1, send.2)
      | none => (201, st1, ws)

/-- `insertAdminSchema` payload as the unnamed MemStorage snapshot
receives it; a flag is `none` when the field is absent. -/
structure InsertAdmin where
  username : String
  password : String
  isSuperAdmin : Option Int
  canManagePlayers : Option Int
  canManageAdmins : Option Int
  deriving Repr, DecidableEq

/-- JS `x || d` over an optional integer field: falsy (`undefined` or 0)
falls back to the default. -/
def jsOr (v : Option Int) (d : Int) : Int :=
  match v with
  | none => d
  | some x => if x == 0 then d else x

/-- `MemStorage.createAdmin` of the unnamed storage snapshot (part_016
1186-1197): `isSuperAdmin: adminData.isSuperAdmin || 0`,
`canManagePlayers: adminData.canManagePlayers || 1`,
`canManageAdmins: adminData.canManageAdmins || 0`. -/
def createAdmin (st : Storage) (adminData : InsertAdmin) : Admin × Storage :=
  let id := st.adminIdCounter
  let admin : Admin :=
    { id := id, username := adminData.username,
      password := adminData.password,
      isSuperAdmin := jsOr adminData.isSuperAdmin 0,
      canManagePlayers := jsOr adminData.canManagePlayers 1,
      canManageAdmins := jsOr adminData.canManageAdmins 0 }
  (admin, { st with admins := st.admins ++ [admin], adminIdCounter := id + 1 })

def emptyStorage : Storage :=
  { players := [], tiers := [], admins := [],
    playerIdCounter := 1, tierIdCounter := 1, adminIdCounter := 1 }

def emptyWebhookState : WebhookState := { recent := [], calls := [] }

/-- A super admin whose `canManagePlayers` flag is cleared. -/
def superAdminNoPerm : Admin :=
  { id := 1, username := "root", password := "x",
    isSuperAdmin := 1, canManagePlayers := 0, canManageAdmins := 1 }

def sampleInsertPlayer : InsertPlayer :=
  { robloxId := "42", username := "bob", avatarUrl := "a",
    combatTitle := "Pirate", points := 0, webhookUrl := none }

/-- C3, counterexample: the POST /players gate never consults the
super-admin flag — an admin with `isSuperAdmin` set but
`canManagePlayers` cleared is rejected with 403 (and no state change),
although the claim says the super-admin flag alone authorizes. -/
theorem postPlayers_superadmin_counterexample :
    postPlayers superAdminNoPerm sampleInsertPlayer emptyStorage
      emptyWebhookState 1 true = (403, emptyStorage, emptyWebhookState)
    ∧ superAdminNoPerm.isSuperAdmin ≠ 0 := by
  exact ⟨rfl, by decide⟩

/-- C3, amended: POST /players authorizes exactly on the
`canManagePlayers` flag (the super-admin flag is not consulted): a falsy
flag yields 403 with no state change, a truthy flag always passes the
gate and the handler answers 200 (update) or 201 (create).  In
particular the claim's concrete pair holds: an admin with both flags
clear is rejected, the same admin with `canManagePlayers` set is
accepted. -/
theorem postPlayers_permission_gate (admin : Admin) (pd : InsertPlayer)
    (st : Storage) (ws : WebhookState) (now : Nat) (fetchOk : Bool) :
    (admin.canManagePlayers = 0 →
      postPlayers admin pd st ws now fetchOk = (403, st, ws))
    ∧ (admin.canManagePlayers ≠ 0 →
      (postPlayers admin pd st ws now fetchOk).1 = 200
      ∨ (postPlayers admin pd st ws now fetchOk).1 = 201) := by
  constructor
  · intro h
    have hb : (admin.canManagePlayers == 0) = true := by simpa using h
    unfold postPlayers
    simp [hb]
  · intro h
    have hb : (admin.canManagePlayers == 0) = false := by simpa using h
    unfold postPlayers
    simp only [hb, Bool.false_eq_true, if_false]
    split
    · split
      · split
        · exact Or.inl rfl
        · exact Or.inl rfl
      · exact Or.inl rfl
    · split
      · split
        · exact Or.inr rfl
        · exact Or.inr rfl
      · exact Or.inr rfl

/-- Witness for `postPlayers_permission_gate`: rejected with both flags
clear, accepted (201) with `canManagePlayers` set. -/
theorem postPlayers_permission_gate_witness :
    postPlayers { superAdminNoPerm with isSuperAdmin := 0 } sampleInsertPlayer
      emptyStorage emptyWebhookState 1 true = (403, emptyStorage, emptyWebhookState)
    ∧ ((postPlayers { superAdminNoPerm with canManagePlayers := 1 }
        sampleInsertPlayer emptyStorage emptyWebhookState 1 true).1 = 200
      ∨ (postPlayers { superAdminNoPerm with canManagePlayers := 1 }
        sampleInsertPlayer emptyStorage emptyWebhookState 1 true).1 = 201) :=
  ⟨(postPlayers_permission_gate _ sampleInsertPlayer emptyStorage
      emptyWebhookState 1 true).1 rfl,
   (postPlayers_permission_gate _ sampleInsertPlayer emptyStorage
      emptyWebhookState 1 true).2 (by decide)⟩

/-- C9: `createAdmin` stores `canManagePlayers = 1` whenever the input
flag is absent or 0 (JS `adminData.canManagePlayers || 1`), keeps a
nonzero submitted value, and therefore never stores a falsy
`canManagePlayers`; `isSuperAdmin` and `canManageAdmins` instead default
to 0 when absent or 0.  The created record is stored. -/
theorem createAdmin_permission_defaults (st : Storage) (a : InsertAdmin) :
    ((a.canManagePlayers = none ∨ a.canManagePlayers = some 0) →
      (createAdmin st a).1.canManagePlayers = 1)
    ∧ (∀ x : Int, a.canManagePlayers = some x → x ≠ 0 →
      (createAdmin st a).1.canManagePlayers = x)
    ∧ (createAdmin st a).1.canManagePlayers ≠ 0
    ∧ ((a.isSuperAdmin = none ∨ a.isSuperAdmin = some 0) →
      (createAdmin st a).1.isSuperAdmin = 0)
    ∧ ((a.canManageAdmins = none ∨ a.canManageAdmins = some 0) →
      (createAdmin st a).1.canManageAdmins = 0)
    ∧ (createAdmin st a).1 ∈ (createAdmin st a).2.admins := by
  refine ⟨?_, ?_, ?_, ?_, ?_, ?_⟩
  · rintro (h | h) <;> simp [createAdmin, jsOr, h]
  · intro x hx hx0
    have hb : (x == 0) = false := by simpa using hx0
    simp [createAdmin, jsOr, hx, hb]
  · show jsOr a.canManagePlayers 1 ≠ 0
    unfold jsOr
    cases hx : a.canManagePlayers with
    | none => decide
    | some x =>
      by_cases h0 : (x == 0) = true
      · simp [h0]
      · have : (x == 0) = false := by simpa using h0
        simp [this]
        simpa using h0
  · rintro (h | h) <;> simp [createAdmin, jsOr, h]
  · rintro (h | h) <;> simp [createAdmin, jsOr, h]
  · simp [createAdmin]

/-- Witness for `createAdmin_permission_defaults`: an admin created with
every flag absent gets `canManagePlayers = 1`. -/
theorem createAdmin_permission_defaults_witness :
    (createAdmin emptyStorage
      { username := "u", password := "p", isSuperAdmin := none,
        canManagePlayers := none, canManageAdmins := none }).1.canManagePlayers
      = 1 :=
  (createAdmin_permission_defaults emptyStorage _).1 (Or.inl rfl)

/-- C8: with an empty or absent tier list, `sendDiscordWebhook` returns
`false` without issuing any outbound request and without touching the
dedup state, for every webhook URL. -/
theorem sendDiscordWebhook_empty_tiers (url : String) (data : WebhookData)
    (now : Nat) (fetchOk : Bool) (ws : WebhookState)
    (h : data.tiers = none ∨ data.tiers = some []) :
    sendDiscordWebhook url data now fetchOk ws = (false, ws) := by
  have htiers : data.tiers.getD [] = [] := by
    rcases h with h | h <;> simp [h]
  unfold sendDiscordWebhook
  split
  · rfl
  · split
    · rfl
    · simp [htiers]

/-- Witness for `sendDiscordWebhook_empty_tiers` at a concrete
invocation with absent tiers. -/
theorem sendDiscordWebhook_empty_tiers_witness :
    sendDiscordWebhook "https://discord.com/api/webhooks/1/x"
      { username := "u", avatarUrl := "a", combatTitle := "c", tiers := none }
      1 true emptyWebhookState = (false, emptyWebhookState) :=
  sendDiscordWebhook_empty_tiers _ _ 1 true emptyWebhookState (Or.inl rfl)

theorem find?_append_of_none {α : Type} (l1 l2 : List α) (p : α → Bool)
    (h : ∀ e ∈ l1, p e = false) : (l1 ++ l2).find? p = l2.find? p := by
  induction l1 with
  | nil => rfl
  | cons a l ih =>
    rw [List.cons_append, List.find?_cons, h a (List.mem_cons_self a l)]
    exact ih (fun e he => h e (List.mem_cons_of_mem a he))

/-- After an invocation that records a send at time `now` for a key not
currently in the dedup map, the map answers `now` for that key. -/
theorem lookupRecent_after_record (recent : List (String × Nat)) (key : String)
    (now : Nat) (h : lookupRecent recent key = none) :
    lookupRecent (pruneRecent (setRecent recent key now) now) key = some now := by
  have hfind : recent.find? (fun e => e.1 == key) = none := by
    unfold lookupRecent at h
    cases hx : recent.find? (fun e => e.1 == key) with
    | none => rfl
    | some v => rw [hx] at h; simp at h
  have hall : ∀ e ∈ recent, (e.1 == key) = false := by
    intro e he
    simpa using List.find?_eq_none.mp hfind e he
  have hany : recent.any (fun e => e.1 == key) = false := by
    rw [List.any_eq_false]
    intro e he
    simp [hall e he]
  unfold setRecent
  rw [hany]
  simp only [Bool.false_eq_true, if_false]
  unfold pruneRecent
  rw [List.filter_append]
  unfold lookupRecent
  rw [find?_append_of_none]
  · simp
  · intro e he
    exact hall e (List.mem_of_mem_filter he)

/-- A `sendDiscordWebhook` invocation whose username was recorded less
than the cooldown ago (at a nonzero time) is a no-op returning `false`,
whatever the URL, tier data and fetch outcome. -/
theorem sendDiscordWebhook_suppressed (url : String) (data : WebhookData)
    (now : Nat) (fetchOk : Bool) (ws : WebhookState) (t : Nat)
    (hrec : lookupRecent ws.recent data.username = some t)
    (ht0 : t ≠ 0) (hlt : now - t < WEBHOOK_COOLDOWN_MS) :
    sendDiscordWebhook url data now fetchOk ws = (false, ws) := by
  have htb : (t != 0) = true := by simpa using ht0
  unfold sendDiscordWebhook
  split
  · rfl
  · split
    · rfl
    · by_cases hfe :
        ((data.tiers.getD []).map (fun t => (t.category, t.tier))).isEmpty = true
      · simp [hfe]
      · simp [hfe, hrec, htb, hlt]

/-- A first `sendDiscordWebhook` invocation with a Discord-shaped URL, a
nonempty tier list and an unrecorded username issues exactly one
outbound call carrying (category, grade) pairs of the given tiers, and
records the username at `now`. -/
theorem sendDiscordWebhook_first (url : String) (data : WebhookData)
    (now : Nat) (fetchOk : Bool) (ws : WebhookState) (l : List Tier)
    (hurl : strStartsWith url discordWebhookBase = true)
    (htiers : data.tiers = some l) (hne : l ≠ [])
    (hclean : lookupRecent ws.recent data.username = none) :
    sendDiscordWebhook url data now fetchOk ws =
      (fetchOk,
       { recent := pruneRecent (setRecent ws.recent data.username now) now,
         calls := ws.calls ++
           [{ url := url, username := data.username,
              fields := l.map (fun t => (t.category, t.tier)),
              sentAt := now }] }) := by
  have hurlne : (url == "") = false := by
    by_contra hcon
    rw [Bool.not_eq_false, beq_iff_eq] at hcon
    rw [hcon] at hurl
    exact absurd hurl (by decide)
  have hmapne : (l.map (fun t => (t.category, t.tier))).isEmpty = false := by
    cases l with
    | nil => exact absurd rfl hne
    | cons a l => rfl
  unfold sendDiscordWebhook
  rw [hurlne, hurl]
  simp only [Bool.false_eq_true, if_false, Bool.not_true, htiers,
    Option.getD_some, hmapne, hclean]

def validUrl : String := "https://discord.com/api/webhooks/1/x"

def otherUrl : String := "https://discord.com/api/webhooks/2/y"

def meleeTierSS : Tier :=
  { id := 1, playerId := 1, category := "melee", tier := "SS", updatedAt := 0 }

def swordTierA : Tier :=
  { id := 2, playerId := 2, category := "sword", tier := "A", updatedAt := 0 }

/-- Data with the shared username "dup" and an empty tier list. -/
def dupDataEmpty : WebhookData :=
  { username := "dup", avatarUrl := "a", combatTitle := "c", tiers := some [] }

/-- Data with the shared username "dup" and one tier. -/
def dupDataFull : WebhookData :=
  { username := "dup", avatarUrl := "a", combatTitle := "c",
    tiers := some [meleeTierSS] }

/-- Data with the shared username "dup" but different everything else. -/
def dupDataOther : WebhookData :=
  { username := "dup", avatarUrl := "b", combatTitle := "d",
    tiers := some [swordTierA] }

/-- C10, counterexample: two invocations with the same username 100 ms
apart, where the first has an empty tier list: the first records
nothing, so the second returns `true` and performs an outbound call —
the claim that the second invocation always returns `false` and makes
no call fails. -/
theorem sendDiscordWebhook_dedup_counterexample :
    (sendDiscordWebhook validUrl dupDataEmpty 100 true emptyWebhookState).1 = false
    ∧ (sendDiscordWebhook validUrl dupDataFull 200 true
        (sendDiscordWebhook validUrl dupDataEmpty 100 true emptyWebhookState).2).1
        = true
    ∧ (sendDiscordWebhook validUrl dupDataFull 200 true
        (sendDiscordWebhook validUrl dupDataEmpty 100 true
          emptyWebhookState).2).2.calls.length = 1 := by
  refine ⟨rfl, rfl, rfl⟩

/-- C10, amended: the dedup key is `data.username` alone, but the claim
holds only when the earlier invocation actually recorded a send (valid
Discord URL and nonempty tier list).  After such a recorded first
invocation at a nonzero time, any second invocation with the same
username within the 5000 ms cooldown returns `false` and performs no
outbound call, even with a different webhook URL, player or tier
data. -/
theorem sendDiscordWebhook_dedup_by_username (url1 : String)
    (data1 : WebhookData) (t1 : Nat) (f1 : Bool) (ws : WebhookState)
    (url2 : String) (data2 : WebhookData) (t2 : Nat) (f2 : Bool) (l1 : List Tier)
    (hurl : strStartsWith url1 discordWebhookBase = true)
    (htiers : data1.tiers = some l1) (hne : l1 ≠ [])
    (hclean : lookupRecent ws.recent data1.username = none)
    (huser : data2.username = data1.username)
    (ht1 : 0 < t1) (hwin : t2 - t1 < WEBHOOK_COOLDOWN_MS) :
    sendDiscordWebhook url2 data2 t2 f2
        (sendDiscordWebhook url1 data1 t1 f1 ws).2
      = (false, (sendDiscordWebhook url1 data1 t1 f1 ws).2) := by
  rw [sendDiscordWebhook_first url1 data1 t1 f1 ws l1 hurl htiers hne hclean]
  apply sendDiscordWebhook_suppressed _ _ _ _ _ t1 _ (Nat.pos_iff_ne_zero.mp ht1) hwin
  show lookupRecent (pruneRecent (setRecent ws.recent data1.username t1) t1)
      data2.username = some t1
  rw [huser]
  exact lookupRecent_after_record ws.recent data1.username t1 hclean

/-- Witness for `sendDiscordWebhook_dedup_by_username`: a recorded send
followed 100 ms later by one with a different URL and different tiers is
suppressed. -/
theorem sendDiscordWebhook_dedup_by_username_witness :
    sendDiscordWebhook otherUrl dupDataOther 200 true
      (sendDiscordWebhook validUrl dupDataFull 100 true emptyWebhookState).2
    = (false,
       (sendDiscordWebhook validUrl dupDataFull 100 true emptyWebhookState).2) :=
  sendDiscordWebhook_dedup_by_username validUrl dupDataFull 100 true
    emptyWebhookState otherUrl dupDataOther 200 true [meleeTierSS]
    (by decide) rfl (by decide) rfl rfl (by decide) (by decide)

theorem createTier_players (st : Storage) (td : InsertTier) (now : Nat) :
    (createTier st td now).2.players = st.players := by
  unfold createTier
  cases getTierByPlayerAndCategory st td.playerId td.category <;> rfl

theorem getPlayerById_createTier (st : Storage) (td : InsertTier) (now : Nat)
    (x : Nat) : getPlayerById (createTier st td now).2 x = getPlayerById st x := by
  unfold getPlayerById
  rw [createTier_players]

/-- A tier write always leaves at least one stored tier for the written
player. -/
theorem createTier_tiers_nonempty (st : Storage) (td : InsertTier) (now : Nat) :
    getTiersByPlayerId (createTier st td now).2 td.playerId ≠ [] := by
  have hmem : ∃ u ∈ (createTier st td now).2.tiers, u.playerId = td.playerId := by
    unfold createTier
    cases hex : getTierByPlayerAndCategory st td.playerId td.category with
    | some ex =>
      have hexmem : ex ∈ st.tiers := List.mem_of_find?_eq_some hex
      have hexpred := List.find?_some hex
      have hexpid : ex.playerId = td.playerId := by
        simp only [Bool.and_eq_true, beq_iff_eq] at hexpred
        exact hexpred.1
      refine ⟨{ ex with tier := td.tier, updatedAt := now }, ?_, hexpid⟩
      simp only
      rw [List.mem_map]
      exact ⟨ex, hexmem, by simp⟩
    | none =>
      refine ⟨{ id := st.tierIdCounter, playerId := td.playerId,
                category := td.category, tier := td.tier,
                updatedAt := now }, ?_, rfl⟩
      simp
  obtain ⟨u, hu, hupid⟩ := hmem
  apply List.ne_nil_of_mem (a := u)
  unfold getTiersByPlayerId
  rw [List.mem_filter]
  exact ⟨hu, by simpa using hupid⟩

/-- A player row owning a webhook URL, a state holding it, and an admin
allowed to manage players, for the concrete notification runs. -/
def webhookPlayer : Player :=
  { id := 1, robloxId := "1", username := "dup", avatarUrl := "a",
    combatTitle := "Pirate", points := 0, webhookUrl := some validUrl }

def webhookStorage : Storage :=
  { players := [webhookPlayer], tiers := [], admins := [],
    playerIdCounter := 2, tierIdCounter := 1, adminIdCounter := 1 }

def permAdmin : Admin :=
  { id := 1, username := "adm", password := "p",
    isSuperAdmin := 0, canManagePlayers := 1, canManageAdmins := 0 }

def meleeWriteA : InsertTier := { playerId := 1, category := "melee", tier := "A" }

def meleeWriteSS : InsertTier := { playerId := 1, category := "melee", tier := "SS" }

/-- C7, counterexample: two tier writes for the same player 1500 ms
apart (within the batch window) produce exactly one outbound call, but
that call carries the tier list as resolved after the FIRST write
(grade "A"), not the latest state (grade "SS") — the batching
`queueWebhookNotification` is never invoked by the tier-write handler,
which calls `sendDiscordWebhook` directly, so the later write is simply
suppressed by the cooldown and its data never sent. -/
theorem postTiers_latest_state_counterexample :
    ((postTiers permAdmin meleeWriteSS
        (postTiers permAdmin meleeWriteA webhookStorage emptyWebhookState
          1000 true).2.1
        (postTiers permAdmin meleeWriteA webhookStorage emptyWebhookState
          1000 true).2.2 2500 true).2.2.calls.map OutCall.fields)
      = [[("melee", "A")]]
    ∧ (getTiersByPlayerId
        (postTiers permAdmin meleeWriteSS
          (postTiers permAdmin meleeWriteA webhookStorage emptyWebhookState
            1000 true).2.1
          (postTiers permAdmin meleeWriteA webhookStorage emptyWebhookState
            1000 true).2.2 2500 true).2.1 1).map
          (fun t => (t.category, t.tier))
      = [("melee", "SS")] := by
  refine ⟨rfl, rfl⟩

/-- C7, amended: two authorized tier writes for the same player (who has
a Discord-shaped webhook URL and no recent notification) within the
5000 ms cooldown produce exactly one outbound notification call — the
one issued at the first write, carrying the player's full resolved tier
list as of that first write; the second write's notification is
suppressed by the cooldown, so the single call does not reflect the
later state. -/
theorem postTiers_two_writes_single_call (admin : Admin)
    (td1 td2 : InsertTier) (st : Storage) (ws : WebhookState) (p : Player)
    (wurl : String) (t1 t2 : Nat) (f1 f2 : Bool)
    (hadmin : admin.canManagePlayers ≠ 0)
    (hp : getPlayerById st td1.playerId = some p)
    (hsame : td2.playerId = td1.playerId)
    (hurl : p.webhookUrl = some wurl)
    (hpre : strStartsWith wurl discordWebhookBase = true)
    (hclean : lookupRecent ws.recent p.username = none)
    (ht1 : 0 < t1) (hwin : t2 - t1 < WEBHOOK_COOLDOWN_MS) :
    (postTiers admin td2
        (postTiers admin td1 st ws t1 f1).2.1
        (postTiers admin td1 st ws t1 f1).2.2 t2 f2).2.2.calls
      = ws.calls ++
        [{ url := wurl, username := p.username,
           fields := (getTiersByPlayerId (postTiers admin td1 st ws t1 f1).2.1
             p.id).map (fun t => (t.category, t.tier)),
           sentAt := t1 }] := by
  have hb : (admin.canManagePlayers == 0) = false := by simpa using hadmin
  have hwne : (wurl == "") = false := by
    by_contra hcon
    rw [Bool.not_eq_false, beq_iff_eq] at hcon
    rw [hcon] at hpre
    exact absurd hpre (by decide)
  have hppid : p.id = td1.playerId := by
    simpa using List.find?_some hp
  have hne1 : getTiersByPlayerId (createTier st td1 t1).2 p.id ≠ [] := by
    rw [hppid]
    exact createTier_tiers_nonempty st td1 t1
  -- evaluate the first handler run
  have h1 : postTiers admin td1 st ws t1 f1 =
      (201, (createTier st td1 t1).2,
        (sendDiscordWebhook wurl
          { username := p.username, avatarUrl := p.avatarUrl,
            combatTitle := if p.combatTitle != "" then p.combatTitle else "Pirate",
            tiers := some (getTiersByPlayerId (createTier st td1 t1).2 p.id) }
          t1 f1 ws).2) := by
    unfold postTiers
    rw [hb]
    simp only [Bool.false_eq_true, if_false, hp]
    rw [hurl]
    simp only [hwne, Bool.false_eq_true, if_false]
  have hsend1 := sendDiscordWebhook_first wurl
    { username := p.username, avatarUrl := p.avatarUrl,
      combatTitle := if p.combatTitle != "" then p.combatTitle else "Pirate",
      tiers := some (getTiersByPlayerId (createTier st td1 t1).2 p.id) }
    t1 f1 ws (getTiersByPlayerId (createTier st td1 t1).2 p.id)
    hpre rfl hne1 hclean
  -- the second run hits the cooldown (or an empty field list) and
  -- leaves the webhook state untouched
  have hp2 : getPlayerById (createTier st td1 t1).2 td2.playerId = some p := by
    rw [hsame, getPlayerById_createTier]
    exact hp
  have hrec1 : lookupRecent
      (sendDiscordWebhook wurl
        { username := p.username, avatarUrl := p.avatarUrl,
          combatTitle := if p.combatTitle != "" then p.combatTitle else "Pirate",
          tiers := some (getTiersByPlayerId (createTier st td1 t1).2 p.id) }
        t1 f1 ws).2.recent p.username = some t1 := by
    rw [hsend1]
    exact lookupRecent_after_record ws.recent p.username t1 hclean
  have hsend2 := sendDiscordWebhook_suppressed wurl
    { username := p.username, avatarUrl := p.avatarUrl,
      combatTitle := if p.combatTitle != "" then p.combatTitle else "Pirate",
      tiers := some (getTiersByPlayerId
        (createTier (createTier st td1 t1).2 td2 t2).2 p.id) }
    t2 f2
    (sendDiscordWebhook wurl
      { username := p.username, avatarUrl := p.avatarUrl,
        combatTitle := if p.combatTitle != "" then p.combatTitle else "Pirate",
        tiers := some (getTiersByPlayerId (createTier st td1 t1).2 p.id) }
      t1 f1 ws).2
    t1 hrec1 (Nat.pos_iff_ne_zero.mp ht1) hwin
  have h2 : (postTiers admin td2
      (postTiers admin td1 st ws t1 f1).2.1
      (postTiers admin td1 st ws t1 f1).2.2 t2 f2).2.2
      = (postTiers admin td1 st ws t1 f1).2.2 := by
    rw [h1]
    simp only
    unfold postTiers
    rw [hb]
    simp only [Bool.false_eq_true, if_false, hp2]
    rw [hurl]
    simp only [hwne, Bool.false_eq_true, if_false]
    rw [hsend2]
  rw [h2, h1]
  simp only
  rw [hsend1]

/-- Witness for `postTiers_two_writes_single_call` at the concrete
two-write run. -/
theorem postTiers_two_writes_single_call_witness :
    (postTiers permAdmin meleeWriteSS
        (postTiers permAdmin meleeWriteA webhookStorage emptyWebhookState
          1000 true).2.1
        (postTiers permAdmin meleeWriteA webhookStorage emptyWebhookState
          1000 true).2.2 2500 true).2.2.calls
      = emptyWebhookState.calls ++
        [{ url := validUrl, username := webhookPlayer.username,
           fields := (getTiersByPlayerId
             (postTiers permAdmin meleeWriteA webhookStorage emptyWebhookState
               1000 true).2.1 webhookPlayer.id).map
             (fun t => (t.category, t.tier)),
           sentAt := 1000 }] :=
  postTiers_two_writes_single_call permAdmin meleeWriteA meleeWriteSS
    webhookStorage emptyWebhookState webhookPlayer validUrl 1000 2500 true true
    (by decide) (by decide) rfl rfl (by decide) rfl (by decide) (by decide)

end BloxTier
